import Mathlib

/-!
Shallow embedding of the BetterFeedback frontend (React client under
frontend/src) and of the analyzer backend described by the project
documentation, together with theorems settling the specification claims.

The frontend is embedded as a pure state machine: component state hooks
become fields of `ClientState`, the event handlers of App.jsx become state
transition functions, and the outcome of the one `fetch` call is passed in
explicitly as a `FetchResult` value.  JavaScript truthiness tests on strings
(`if (!rawText)`, `if (data.error)`) are modelled by `truthyStr`, which is
false exactly on `null`/missing (`none`) and on the empty string.
-/

namespace BetterFeedback

/-- One categorized feedback item as the frontend consumes it
(category, summary, sentiment_score, original_text).  The sentiment score
is modelled as a rational number in place of a JavaScript float; none of
the claims depend on float rounding. -/
structure Item where
  category : String
  summary : String
  sentiment_score : Rat
  original_text : String
deriving DecidableEq, Repr

/-- The analyze-flow status of App.jsx: idle, ready, loading, success, error. -/
inductive Status where
  | idle
  | ready
  | loading
  | success
  | error
deriving DecidableEq, Repr

/-- The view-level toggle of App.jsx: the analyze screen or the history screen. -/
inductive View where
  | analyze
  | history
deriving DecidableEq, Repr

/-- JavaScript truthiness of a nullable string: `null`/missing and `""` are
falsy, every other string is truthy. -/
def truthyStr : Option String → Bool
  | none => false
  | some s => !(s == "")

/-- The body of a parsed `/api/analyze` response as App.jsx reads it:
`data.error` and `data.items`, each possibly `null`/missing. -/
structure ApiData where
  error : Option String
  items : Option (List Item)
deriving DecidableEq, Repr

/-- Outcome of `fetch` + `res.json()` inside handleAnalyze: either a parsed
body, or a thrown exception (network failure or JSON parse failure),
which the `catch` block receives. -/
inductive FetchResult where
  | ok (data : ApiData)
  | exn
deriving DecidableEq, Repr

/-- The React state of App.jsx: view, rawText, status, items, errorMsg. -/
structure ClientState where
  view : View
  rawText : Option String
  status : Status
  items : List Item
  errorMsg : Option String
deriving DecidableEq, Repr

/-- The initial hook values of App.jsx. -/
def initState : ClientState :=
  { view := .analyze, rawText := none, status := .idle, items := [], errorMsg := none }

/-- handleUpload of App.jsx: store the text, set status to ready when the
text is truthy and to idle otherwise, clear items and the error message. -/
def handleUpload (text : Option String) (s : ClientState) : ClientState :=
  { s with rawText := text,
           status := if truthyStr text then .ready else .idle,
           items := [],
           errorMsg := none }

/-- The fixed message handleAnalyze shows when fetch or JSON parsing throws. -/
def networkErrorMsg : String := "Could not reach the API. Is the Flask server running?"

/-- The prefix of handleAnalyze that runs before the fetch resolves:
status becomes loading and the error message is cleared. -/
def startAnalyze (s : ClientState) : ClientState :=
  { s with status := .loading, errorMsg := none }

/-- The continuation of handleAnalyze on the loading state once the fetch
resolves: a truthy `data.error` yields the error state with that message,
an exception yields the error state with `networkErrorMsg`, and otherwise
`data.items ?? []` is stored and status becomes success. -/
def resolveAnalyze (r : FetchResult) (s : ClientState) : ClientState :=
  match r with
  | .exn => { s with status := .error, errorMsg := some networkErrorMsg }
  | .ok d =>
      if truthyStr d.error then
        { s with status := .error, errorMsg := d.error }
      else
        { s with status := .success, items := d.items.getD [], errorMsg := none }

/-- handleAnalyze of App.jsx: a falsy rawText returns at once with no state
change and no request; otherwise the machine passes through the loading
state and ends at the fetch resolution. -/
def handleAnalyze (r : FetchResult) (s : ClientState) : ClientState :=
  if truthyStr s.rawText then resolveAnalyze r (startAnalyze s) else s

/-- handleRestore of App.jsx: inject a past run's items, enter success,
and set the placeholder rawText. -/
def handleRestore (restoredItems : List Item) (s : ClientState) : ClientState :=
  { s with items := restoredItems,
           status := .success,
           rawText := some "(restored from history)" }

/-- isLoading of App.jsx. -/
def isLoading (s : ClientState) : Bool := s.status == .loading

/-- canAnalyze of App.jsx: status is ready or success. -/
def canAnalyze (s : ClientState) : Bool := s.status == .ready || s.status == .success

/-- The `disabled` expression of the Analyze button: `!canAnalyze || isLoading`. -/
def analyzeDisabled (s : ClientState) : Bool := !canAnalyze s || isLoading s

/-- One click on the Analyze button: a disabled button does nothing, and an
enabled one runs handleAnalyze.  The boolean records whether an HTTP
request was issued. -/
def clickAnalyze (r : FetchResult) (s : ClientState) : ClientState × Bool :=
  if analyzeDisabled s then (s, false)
  else if truthyStr s.rawText then (resolveAnalyze r (startAnalyze s), true)
  else (s, false)

/-- The user-interface events that reach App.jsx's state.  Uploads arrive on
two paths of FileUpload.jsx: the file-picker `<input>` (and the Clear
button), which carry the `disabled` attribute, and the drag-and-drop
`onDrop` handler of the surrounding div, which does not. -/
inductive Event where
  | uploadPicker (text : Option String)
  | uploadDrop (text : Option String)
  | analyzeClick (r : FetchResult)
  | restore (restoredItems : List Item)
  | nav (v : View)
deriving DecidableEq, Repr

/-- One step of the client state machine.  The picker and Clear button are
disabled while a request is loading; the drop handler is not gated.  The
restore button exists only on the history view and navigates back to the
analyze view after injecting the run's items. -/
def step (s : ClientState) (e : Event) : ClientState :=
  match e with
  | .uploadPicker t => if isLoading s then s else handleUpload t s
  | .uploadDrop t => handleUpload t s
  | .analyzeClick r => (clickAnalyze r s).1
  | .restore its => if s.view == .history then { handleRestore its s with view := .analyze } else s
  | .nav v => { s with view := v }

/-- How many HTTP requests one event issues: an enabled Analyze click issues
the one POST /api/analyze; entering the history view mounts HistoryPage,
whose effect issues the one GET /api/history fetch; every other event,
restoring a run included, issues none. -/
def apiCalls (s : ClientState) (e : Event) : Nat :=
  match e with
  | .uploadPicker _ => 0
  | .uploadDrop _ => 0
  | .analyzeClick r => if (clickAnalyze r s).2 then 1 else 0
  | .restore _ => 0
  | .nav v => if v == .history && !(s.view == .history) then 1 else 0

/-- Running the machine from the initial state over a list of events. -/
def run (es : List Event) : ClientState := es.foldl step initState

/-- The states the client can reach from the initial render. -/
inductive Reach : ClientState → Prop where
  | init : Reach initState
  | next (s : ClientState) (e : Event) : Reach s → Reach (step s e)

/-- The loading spinner renders exactly when `isLoading`. -/
def rendersLoading (s : ClientState) : Bool := isLoading s

/-- The error banner renders exactly when status is error and errorMsg is
truthy (`status === 'error' && errorMsg && ...`). -/
def rendersErrorBanner (s : ClientState) : Bool :=
  (s.status == .error) && truthyStr s.errorMsg

/-- The dashboard renders exactly when status is success. -/
def rendersDashboard (s : ClientState) : Bool := s.status == .success

/-- Dashboard.jsx: the Bug column is the items whose category is "Bug". -/
def dashBugs (items : List Item) : List Item :=
  items.filter (fun i => i.category == "Bug")

/-- Dashboard.jsx: the Feature column. -/
def dashFeatures (items : List Item) : List Item :=
  items.filter (fun i => i.category == "Feature")

/-- Dashboard.jsx: the Pain Point column. -/
def dashPains (items : List Item) : List Item :=
  items.filter (fun i => i.category == "Pain Point")

/-- Dashboard.jsx: the header count is the length of the full input list. -/
def dashboardCount (items : List Item) : Nat := items.length

/-! ### FileUpload.jsx: extension handling and JSON pretty-printing

`readFile` computes `file.name.slice(file.name.lastIndexOf('.')).toLowerCase()`,
rejects extensions other than `.txt`/`.json` with an alert, and for `.json`
tries `JSON.parse` followed by `JSON.stringify(parsed, null, 2)`, falling back
to the raw text when parsing throws.  `JSON.parse`/`JSON.stringify` are
browser builtins, not repository code; they are modelled here by an
executable parser and printer for the JSON fragment the claims exercise
(null, booleans, integer numerals, strings with simple escapes, arrays,
objects).  The model is conservative: whatever it parses, `JSON.parse`
parses to the same tree. -/

/-- A JSON value (numbers restricted to integers). -/
inductive Json where
  | null
  | bool (b : Bool)
  | num (n : Int)
  | str (s : String)
  | arr (elems : List Json)
  | obj (mems : List (String × Json))
deriving Repr

/-- Indentation of JSON.stringify with indent 2: two spaces per depth level. -/
def indentN (d : Nat) : String := String.mk (List.replicate (2 * d) ' ')

/-- Escape one character the way JSON.stringify does (fragment). -/
def escChar (c : Char) : String :=
  if c = '"' then "\\\""
  else if c = '\\' then "\\\\"
  else if c = '\n' then "\\n"
  else if c = '\t' then "\\t"
  else String.singleton c

/-- A JSON string literal with quotes and escapes. -/
def quoteStr (s : String) : String :=
  "\"" ++ String.join (s.toList.map escChar) ++ "\""

mutual

/-- Render a JSON value at nesting depth `d` the way
`JSON.stringify(v, null, 2)` does. -/
def renderJson (d : Nat) : Json → String
  | .null => "null"
  | .bool true => "true"
  | .bool false => "false"
  | .num n => toString n
  | .str s => quoteStr s
  | .arr [] => "[]"
  | .arr (x :: xs) => "[\n" ++ renderElems d (x :: xs) ++ "\n" ++ indentN d ++ "]"
  | .obj [] => "\x7b\x7d"
  | .obj (m :: ms) => "\x7b\n" ++ renderMems d (m :: ms) ++ "\n" ++ indentN d ++ "\x7d"

/-- Render array elements, one per line, comma-separated. -/
def renderElems (d : Nat) : List Json → String
  | [] => ""
  | [x] => indentN (d + 1) ++ renderJson (d + 1) x
  | x :: y :: xs =>
      indentN (d + 1) ++ renderJson (d + 1) x ++ ",\n" ++ renderElems d (y :: xs)

/-- Render object members, one per line, comma-separated. -/
def renderMems (d : Nat) : List (String × Json) → String
  | [] => ""
  | [(k, v)] => indentN (d + 1) ++ quoteStr k ++ ": " ++ renderJson (d + 1) v
  | (k, v) :: m :: ms =>
      indentN (d + 1) ++ quoteStr k ++ ": " ++ renderJson (d + 1) v ++ ",\n"
        ++ renderMems d (m :: ms)

end

/-- Model of `JSON.stringify(v, null, 2)`. -/
def jsonStringify2 (j : Json) : String := renderJson 0 j

/-- Skip JSON whitespace. -/
def skipWs : List Char → List Char
  | c :: cs => if c = ' ' || c = '\n' || c = '\t' || c = '\r' then skipWs cs else c :: cs
  | [] => []

/-- Unescape one character after a backslash inside a JSON string. -/
def unescapeChar (c : Char) : Option Char :=
  if c = '"' then some '"'
  else if c = '\\' then some '\\'
  else if c = '/' then some '/'
  else if c = 'n' then some '\n'
  else if c = 't' then some '\t'
  else if c = 'r' then some '\r'
  else none

/-- Parse the body of a JSON string literal after the opening quote,
returning the string and the rest of the input. -/
def parseStrBody : List Char → Option (String × List Char)
  | [] => none
  | '"' :: rest => some ("", rest)
  | '\\' :: c :: rest => do
      let e ← unescapeChar c
      let (s, r) ← parseStrBody rest
      some (String.singleton e ++ s, r)
  | c :: rest => do
      if c = '\\' then none
      else
        let (s, r) ← parseStrBody rest
        some (String.singleton c ++ s, r)

/-- Longest prefix of decimal digits and the rest. -/
def takeDigits : List Char → List Char × List Char
  | [] => ([], [])
  | c :: cs =>
      if c.isDigit then
        let (ds, r) := takeDigits cs
        (c :: ds, r)
      else ([], c :: cs)

/-- Decimal digits to a natural number. -/
def digitsToNat (ds : List Char) : Nat :=
  ds.foldl (fun n c => 10 * n + (c.toNat - '0'.toNat)) 0

/-- Parse an integer JSON numeral (optional minus sign, digits). -/
def parseNum (cs : List Char) : Option (Json × List Char) :=
  match cs with
  | '-' :: rest =>
      match takeDigits rest with
      | ([], _) => none
      | (ds, r) => some (.num (-(digitsToNat ds : Int)), r)
  | _ =>
      match takeDigits cs with
      | ([], _) => none
      | (ds, r) => some (.num (digitsToNat ds), r)

mutual

/-- Fuel-indexed recursive-descent parser for one JSON value. -/
def parseVal : Nat → List Char → Option (Json × List Char)
  | 0, _ => none
  | fuel + 1, cs =>
      match skipWs cs with
      | 'n' :: 'u' :: 'l' :: 'l' :: rest => some (.null, rest)
      | 't' :: 'r' :: 'u' :: 'e' :: rest => some (.bool true, rest)
      | 'f' :: 'a' :: 'l' :: 's' :: 'e' :: rest => some (.bool false, rest)
      | '"' :: rest => do
          let (s, r) ← parseStrBody rest
          some (.str s, r)
      | '[' :: rest =>
          match skipWs rest with
          | ']' :: r2 => some (.arr [], r2)
          | r2 => do
              let (xs, r3) ← parseElems fuel r2
              some (.arr xs, r3)
      | '\x7b' :: rest =>
          match skipWs rest with
          | '\x7d' :: r2 => some (.obj [], r2)
          | r2 => do
              let (ms, r3) ← parseMems fuel r2
              some (.obj ms, r3)
      | c :: rest =>
          if c = '-' || c.isDigit then parseNum (c :: rest) else none
      | [] => none

/-- Parse the elements of a non-empty JSON array up to the closing bracket. -/
def parseElems : Nat → List Char → Option (List Json × List Char)
  | 0, _ => none
  | fuel + 1, cs => do
      let (v, r) ← parseVal fuel cs
      match skipWs r with
      | ',' :: r2 => do
          let (vs, r3) ← parseElems fuel r2
          some (v :: vs, r3)
      | ']' :: r2 => some ([v], r2)
      | _ => none

/-- Parse the members of a non-empty JSON object up to the closing brace. -/
def parseMems : Nat → List Char → Option (List (String × Json) × List Char)
  | 0, _ => none
  | fuel + 1, cs =>
      match skipWs cs with
      | '"' :: rest => do
          let (k, r) ← parseStrBody rest
          match skipWs r with
          | ':' :: r2 => do
              let (v, r3) ← parseVal fuel r2
              match skipWs r3 with
              | ',' :: r4 => do
                  let (ms, r5) ← parseMems fuel r4
                  some ((k, v) :: ms, r5)
              | '\x7d' :: r4 => some ([(k, v)], r4)
              | _ => none
          | _ => none
      | _ => none

end

/-- Model of `JSON.parse`: parse one value, require only whitespace after it. -/
def jsParse (s : String) : Option Json :=
  match parseVal (s.length + 1) s.toList with
  | some (v, rest) => if skipWs rest = [] then some v else none
  | none => none

/-- The composite used by FileUpload.jsx for `.json` files:
`JSON.stringify(JSON.parse(text), null, 2)`, or `none` when parsing throws. -/
def jsonPretty (text : String) : Option String := (jsParse text).map jsonStringify2

/-- Index of the last occurrence of `c`, innermost-first recursion. -/
def jsLastIndexOfAux (cs : List Char) (c : Char) : Option Nat :=
  match cs with
  | [] => none
  | a :: rest =>
      match jsLastIndexOfAux rest c with
      | some j => some (j + 1)
      | none => if a == c then some 0 else none

/-- JavaScript `String.prototype.lastIndexOf` for a single character:
the index of the last occurrence, or -1. -/
def jsLastIndexOf (cs : List Char) (c : Char) : Int :=
  match jsLastIndexOfAux cs c with
  | some j => (j : Int)
  | none => -1

/-- JavaScript `String.prototype.slice` with one argument: a negative start
counts from the end (clamped at 0). -/
def jsSliceFrom (cs : List Char) (i : Int) : List Char :=
  let st : Int := if i < 0 then max ((cs.length : Int) + i) 0 else i
  cs.drop st.toNat

/-- The extension FileUpload.jsx computes:
`file.name.slice(file.name.lastIndexOf('.')).toLowerCase()` —
`toLowerCase` modelled character-wise. -/
def extOf (name : String) : String :=
  String.mk ((jsSliceFrom name.toList (jsLastIndexOf name.toList '.')).map Char.toLower)

/-- readFile of FileUpload.jsx on a file with the given name and content:
`none` means the alert fired and `onUpload` was never called; `some t`
means `onUpload(t)` was called. -/
def readFile (name content : String) : Option String :=
  let ext := extOf name
  if !(ext == ".txt" || ext == ".json") then none
  else if ext == ".json" then
    match jsonPretty content with
    | some t => some t
    | none => some content
  else some content

/-! ### Backend analyzer, modelled from the spec

The backend sources (backend/models.py, backend/services/ai_service.py,
backend/app.py) are not among the repository files available here; only the
README and the AI-usage log describe them.  The validator and the analyzer
orchestration are therefore modelled from the spec's words. -/

/-- Modelled from the spec: one raw element of the AI adapter's parsed JSON
array, before validation (backend/models.py is not in the available
sources).  A `none` field models a missing field. -/
structure RawItem where
  category : Option String
  summary : Option String
  sentiment_score : Option Rat
  original_text : Option String
deriving DecidableEq, Repr

/-- Modelled from the spec: category membership in the fixed three-value set
Bug / Feature / Pain Point. -/
def validCategory (c : String) : Bool :=
  c == "Bug" || c == "Feature" || c == "Pain Point"

/-- Modelled from the spec: the per-item validator — field presence,
category membership, sentiment_score within [0,1], non-empty summary and
original_text (spec 4.1 and 8). -/
def validateItem (r : RawItem) : Bool :=
  match r.category, r.summary, r.sentiment_score, r.original_text with
  | some c, some s, some sc, some o =>
      validCategory c && !(s == "") && !(o == "") && decide (0 ≤ sc ∧ sc ≤ 1)
  | _, _, _, _ => false

/-- Modelled from the spec: the adapter's outcome — a parsed JSON array of
raw elements, or a typed AIServiceError reason code. -/
inductive AdapterResult where
  | ok (elems : List RawItem)
  | err (reason : String)
deriving DecidableEq, Repr

/-- Modelled from the spec: the three-field response shape
`{items, count, error}`. -/
structure AnalyzeResponse where
  items : List RawItem
  count : Nat
  error : Option String
deriving DecidableEq, Repr

/-- Modelled from the spec: empty/whitespace-only input detection
(spec 4.3 step 1). -/
def isBlank (text : String) : Bool := text.toList.all Char.isWhitespace

/-- Modelled from the spec: `Analyzer.run` (spec 4.3) — reject blank input
with no adapter call; map an adapter error to an error response; otherwise
keep exactly the individually valid elements, in order, dropping invalid
ones, and return them with their count and a null error. -/
def Analyzer.run (text : String) (adapter : AdapterResult) : AnalyzeResponse :=
  if isBlank text then { items := [], count := 0, error := some "empty input" }
  else
    match adapter with
    | .err reason => { items := [], count := 0, error := some reason }
    | .ok elems =>
        let valid := elems.filter validateItem
        { items := valid, count := valid.length, error := none }

/-! ### Concrete demonstration states shared by witnesses and counterexamples -/

/-- A sample feedback item. -/
def demoItem : Item :=
  { category := "Bug", summary := "Login button is non-functional.",
    sentiment_score := 0,
    original_text := "The login button is broken." }

/-- The state after uploading a file with truthy content: status ready. -/
def readyDemoState : ClientState := run [.uploadPicker (some "The login button is broken.")]

/-- A reachable error state: upload, then an Analyze click whose fetch threw. -/
def errDemoState : ClientState :=
  run [.uploadPicker (some "The login button is broken."), .analyzeClick .exn]

/-- A reachable success state: upload, then an Analyze click whose response
carried items and a null error. -/
def succDemoState : ClientState :=
  run [.uploadPicker (some "The login button is broken."),
       .analyzeClick (.ok { error := none, items := some [demoItem] })]

/-- A one-item list whose category is outside the three dashboard columns. -/
def otherDemoItems : List Item :=
  [{ category := "Compliment", summary := "Love the app.",
     sentiment_score := 1, original_text := "Love the app!" }]

/-! ### Session model with explicit in-flight requests

To reason about concurrent analyze requests, the fetch is split into its
issue (the Analyze click, entering loading) and its resolution (the awaited
response running the rest of handleAnalyze), with a counter of issued but
unresolved requests.  The client-state effects reuse the transition
functions above. -/

/-- A client session: the React state plus the number of analyze requests
issued and not yet resolved. -/
structure SessionState where
  client : ClientState
  inFlight : Nat
deriving DecidableEq, Repr

/-- The session-level events: an Analyze click issues a request without
waiting for it; a pending request resolves later with a `FetchResult`.
The upload, restore and navigation events are as in `Event`. -/
inductive SEvent where
  | uploadPicker (text : Option String)
  | uploadDrop (text : Option String)
  | clickStart
  | resolve (r : FetchResult)
  | restore (restoredItems : List Item)
  | nav (v : View)
deriving DecidableEq, Repr

/-- One step of the session machine.  A click on an enabled Analyze button
with truthy text enters loading and increments the in-flight count; a
resolution runs the continuation of handleAnalyze on the current state and
decrements the count (a resolution with nothing outstanding is a no-op).
The upload, restore and navigation cases mirror `step`. -/
def sstep (s : SessionState) (e : SEvent) : SessionState :=
  match e with
  | .uploadPicker t =>
      if isLoading s.client then s else { s with client := handleUpload t s.client }
  | .uploadDrop t => { s with client := handleUpload t s.client }
  | .clickStart =>
      if analyzeDisabled s.client then s
      else if truthyStr s.client.rawText then
        { client := startAnalyze s.client, inFlight := s.inFlight + 1 }
      else s
  | .resolve r =>
      if s.inFlight = 0 then s
      else { client := resolveAnalyze r s.client, inFlight := s.inFlight - 1 }
  | .restore its =>
      if s.client.view == View.history then
        { s with client := { handleRestore its s.client with view := .analyze } }
      else s
  | .nav v => { s with client := { s.client with view := v } }

/-- The session before any event: initial client state, nothing in flight. -/
def initSession : SessionState := { client := initState, inFlight := 0 }

/-- Running the session machine from the start over a list of events. -/
def srun (es : List SEvent) : SessionState := es.foldl sstep initSession

/-- The events that respect the Analyze gate: everything except the two
paths that can move the status out of loading while a request is still
outstanding — the ungated drag-and-drop upload and the history restore. -/
def gateRespecting : SEvent → Bool
  | .uploadDrop _ => false
  | .restore _ => false
  | _ => true

/-- The single-flight invariant: either nothing is outstanding, or exactly
one request is outstanding and the status is still loading (so the Analyze
button is disabled). -/
def singleFlightInv (s : SessionState) : Prop :=
  s.inFlight = 0 ∨ (s.inFlight = 1 ∧ s.client.status = Status.loading)

/-! ## Theorems settling the claims -/

/-- The single-flight invariant is preserved by every gate-respecting
event: the picker upload is a no-op during loading, an Analyze click can
only fire when nothing is outstanding (an outstanding request keeps the
status at loading, where the button is disabled), a resolution empties the
count, and navigation touches neither status nor count. -/
lemma singleFlight_sstep (s : SessionState) (e : SEvent)
    (hs : singleFlightInv s) (he : gateRespecting e = true) :
    singleFlightInv (sstep s e) := by
  cases e with
  | uploadPicker t =>
      by_cases hl : isLoading s.client = true
      · simpa [sstep, hl] using hs
      · have hl' : isLoading s.client = false := by simpa using hl
        rcases hs with h0 | ⟨h1, hldg⟩
        · left; simpa [sstep, hl'] using h0
        · exfalso
          simp [isLoading, hldg] at hl'
  | uploadDrop t => simp [gateRespecting] at he
  | restore its => simp [gateRespecting] at he
  | clickStart =>
      by_cases hd : analyzeDisabled s.client = true
      · simpa [sstep, hd] using hs
      · have hd' : analyzeDisabled s.client = false := by simpa using hd
        by_cases hr : truthyStr s.client.rawText = true
        · right
          have h0 : s.inFlight = 0 := by
            rcases hs with h0 | ⟨h1, hldg⟩
            · exact h0
            · exfalso
              simp [analyzeDisabled, isLoading, hldg] at hd'
          refine ⟨by simp [sstep, hd', hr, h0], by simp [sstep, hd', hr, startAnalyze]⟩
        · have hr' : truthyStr s.client.rawText = false := by simpa using hr
          simpa [sstep, hd', hr'] using hs
  | resolve r =>
      by_cases h0 : s.inFlight = 0
      · simpa [sstep, h0] using hs
      · left
        rcases hs with hz | ⟨h1, _⟩
        · exact absurd hz h0
        · simp [sstep, h0, h1]
  | nav v =>
      rcases hs with h0 | ⟨h1, hldg⟩
      · left; simpa [sstep] using h0
      · right; exact ⟨by simpa [sstep] using h1, by simpa [sstep] using hldg⟩

/-- The single-flight invariant holds along any fold over gate-respecting
events. -/
lemma singleFlight_foldl (es : List SEvent) :
    ∀ s : SessionState, singleFlightInv s → (∀ e ∈ es, gateRespecting e = true) →
      singleFlightInv (es.foldl sstep s) := by
  induction es with
  | nil => intro s hs _; simpa using hs
  | cons e es ih =>
      intro s hs hall
      exact ih (sstep s e)
        (singleFlight_sstep s e hs (hall e (List.mem_cons_self e es)))
        (fun x hx => hall x (List.mem_cons_of_mem e hx))

/-- C1 counterexample: a session reaching two analyze requests in flight at
once — upload by drop, click Analyze (one request outstanding, status
loading), drop a second file mid-flight (the ungated onDrop path resets the
status to ready, re-enabling the button), click Analyze again.  After the
third event a request is outstanding yet the button is enabled, and the
fourth event issues a second concurrent request, so the claim's single
in-flight bound is false. -/
theorem c1_counterexample :
    (srun [SEvent.uploadDrop (some "first feedback"), SEvent.clickStart,
        SEvent.uploadDrop (some "second feedback")]).inFlight = 1
    ∧ analyzeDisabled (srun [SEvent.uploadDrop (some "first feedback"), SEvent.clickStart,
        SEvent.uploadDrop (some "second feedback")]).client = false
    ∧ (srun [SEvent.uploadDrop (some "first feedback"), SEvent.clickStart,
        SEvent.uploadDrop (some "second feedback"), SEvent.clickStart]).inFlight = 2 :=
  ⟨rfl, rfl, rfl⟩

/-- C1 amended: in every state with status loading, idle or error the
Analyze button is disabled and a click changes nothing and issues no
request; and along every session whose events keep to the gated paths
(picker uploads, Analyze clicks, fetch resolutions, navigation — no
drag-and-drop uploads and no history restores, the two paths that can leave
loading with a request still pending) at most one analyze request is ever
in flight. -/
theorem c1_amended_gate_single_flight (s : SessionState) (es : List SEvent)
    (hgs : s.client.status = Status.loading ∨ s.client.status = Status.idle
      ∨ s.client.status = Status.error)
    (hall : ∀ e ∈ es, gateRespecting e = true) :
    analyzeDisabled s.client = true
    ∧ sstep s SEvent.clickStart = s
    ∧ (srun es).inFlight ≤ 1 := by
  have hd : analyzeDisabled s.client = true := by
    rcases hgs with h | h | h <;> simp [analyzeDisabled, canAnalyze, isLoading, h]
  refine ⟨hd, by simp [sstep, hd], ?_⟩
  have hinv := singleFlight_foldl es initSession (Or.inl rfl) hall
  show (es.foldl sstep initSession).inFlight ≤ 1
  rcases hinv with h0 | ⟨h1, _⟩ <;> omega

/-- C1 witness: the amended theorem applied to a concrete error-state
session and a concrete gate-respecting event list (upload by picker, one
Analyze click, its resolution). -/
theorem c1_amended_witness :
    analyzeDisabled ({ client := errDemoState, inFlight := 0 } : SessionState).client = true
    ∧ sstep { client := errDemoState, inFlight := 0 } SEvent.clickStart
        = { client := errDemoState, inFlight := 0 }
    ∧ (srun [SEvent.uploadPicker (some "The login button is broken."), SEvent.clickStart,
        SEvent.resolve FetchResult.exn]).inFlight ≤ 1 :=
  c1_amended_gate_single_flight { client := errDemoState, inFlight := 0 }
    [SEvent.uploadPicker (some "The login button is broken."), SEvent.clickStart,
     SEvent.resolve FetchResult.exn]
    (Or.inr (Or.inr rfl)) (by decide)

/-- C2 counterexample: a reachable error state that still holds uploaded
text, yet the Analyze button is disabled there and a click does nothing —
the claim that an analyze-click is enabled in the error state is false. -/
theorem c2_counterexample :
    errDemoState.status = Status.error
    ∧ truthyStr errDemoState.rawText = true
    ∧ analyzeDisabled errDemoState = true
    ∧ clickAnalyze FetchResult.exn errDemoState = (errDemoState, false) :=
  ⟨rfl, by decide, rfl, rfl⟩

/-- C2 amended: from the success state (with truthy uploaded text) an
analyze-click is enabled and drives the machine through the loading state to
the fetch resolution; from the error state the Analyze button is disabled
and a click does nothing. -/
theorem c2_amended_retrigger (s t : ClientState) (r : FetchResult)
    (hs : s.status = Status.success) (hraw : truthyStr s.rawText = true)
    (ht : t.status = Status.error) :
    analyzeDisabled s = false
    ∧ clickAnalyze r s = (resolveAnalyze r (startAnalyze s), true)
    ∧ (startAnalyze s).status = Status.loading
    ∧ analyzeDisabled t = true
    ∧ clickAnalyze r t = (t, false) := by
  simp [analyzeDisabled, canAnalyze, isLoading, clickAnalyze, startAnalyze, hs, hraw, ht]

/-- C2 witness: the amended theorem applied to concrete reachable success
and error states. -/
theorem c2_amended_witness :
    analyzeDisabled succDemoState = false
    ∧ clickAnalyze FetchResult.exn succDemoState
        = (resolveAnalyze FetchResult.exn (startAnalyze succDemoState), true)
    ∧ (startAnalyze succDemoState).status = Status.loading
    ∧ analyzeDisabled errDemoState = true
    ∧ clickAnalyze FetchResult.exn errDemoState = (errDemoState, false) :=
  c2_amended_retrigger succDemoState errDemoState FetchResult.exn rfl (by decide) rfl

/-- C3 counterexample: in the loading state, a drag-and-drop upload is still
processed — FileUpload.jsx disables the file-picker input and the Clear
button while loading, but its onDrop handler ignores the disabled flag, so
the dropped content moves the status to ready mid-flight.  The claim that
upload is disabled in the loading state is false for this path. -/
theorem c3_counterexample :
    (startAnalyze readyDemoState).status = Status.loading
    ∧ (step (startAnalyze readyDemoState) (.uploadDrop (some "more feedback"))).status
        = Status.ready
    ∧ step (startAnalyze readyDemoState) (.uploadPicker (some "more feedback"))
        = startAnalyze readyDemoState :=
  ⟨rfl, by decide, rfl⟩

/-- C3 amended: outside the loading state both upload paths run
handleUpload, which sets status to ready on truthy content and to idle on
null/empty content, stores the text and clears items and the error message;
in the loading state the file-picker path is disabled (no state change)
while the drag-and-drop path still runs handleUpload. -/
theorem c3_amended_upload (s u : ClientState) (t : Option String)
    (h : s.status ≠ Status.loading) (hu : u.status = Status.loading) :
    step s (.uploadPicker t) = handleUpload t s
    ∧ step s (.uploadDrop t) = handleUpload t s
    ∧ (handleUpload t s).status = (if truthyStr t then Status.ready else Status.idle)
    ∧ (handleUpload t s).rawText = t
    ∧ (handleUpload t s).items = []
    ∧ (handleUpload t s).errorMsg = none
    ∧ step u (.uploadPicker t) = u
    ∧ step u (.uploadDrop t) = handleUpload t u := by
  have hl : isLoading s = false := by
    simp [isLoading]
    exact h
  simp [step, handleUpload, hl, isLoading, hu]
  exact fun hc => absurd hc h

/-- C3 witness: the amended theorem applied to the concrete ready state, a
concrete loading state and concrete uploaded content. -/
theorem c3_amended_witness :
    step readyDemoState (.uploadPicker (some "new text"))
        = handleUpload (some "new text") readyDemoState
    ∧ step readyDemoState (.uploadDrop (some "new text"))
        = handleUpload (some "new text") readyDemoState
    ∧ (handleUpload (some "new text") readyDemoState).status
        = (if truthyStr (some "new text") then Status.ready else Status.idle)
    ∧ (handleUpload (some "new text") readyDemoState).rawText = some "new text"
    ∧ (handleUpload (some "new text") readyDemoState).items = []
    ∧ (handleUpload (some "new text") readyDemoState).errorMsg = none
    ∧ step (startAnalyze readyDemoState) (.uploadPicker (some "new text"))
        = startAnalyze readyDemoState
    ∧ step (startAnalyze readyDemoState) (.uploadDrop (some "new text"))
        = handleUpload (some "new text") (startAnalyze readyDemoState) :=
  c3_amended_upload readyDemoState (startAnalyze readyDemoState) (some "new text")
    (by decide) rfl

/-- A truthy nullable string is exactly a non-empty string. -/
lemma truthyStr_iff (o : Option String) :
    truthyStr o = true ↔ ∃ m, o = some m ∧ m ≠ "" := by
  cases o <;> simp [truthyStr]

/-- With truthy uploaded text, handleAnalyze is the fetch resolution applied
to the loading state. -/
lemma handleAnalyze_eq (r : FetchResult) (s : ClientState)
    (h : truthyStr s.rawText = true) :
    handleAnalyze r s = resolveAnalyze r (startAnalyze s) := by
  simp [handleAnalyze, h]

/-- C4 counterexample: a response whose error field is the empty string is
non-null, yet the client terminates in the success state on it (JavaScript
`if (data.error)` is a truthiness test, not a null test) — so the claim's
partition "success exactly when the error field is null" is false. -/
theorem c4_counterexample :
    (resolveAnalyze (.ok { error := some "", items := some [] })
        (startAnalyze readyDemoState)).status = Status.success
    ∧ ({ error := some "", items := some [] } : ApiData).error ≠ none :=
  ⟨rfl, by decide⟩

/-- C4 amended: every analyze request started from the loading state (truthy
uploaded text) terminates in success or error and nowhere else; the error
state always carries a non-empty message; a thrown fetch yields the fixed
network message; a truthy (non-null, non-empty) response error field yields
the error state with that message; a falsy one (null or empty) yields
success with `data.items ?? []` stored. -/
theorem c4_amended_terminal (s : ClientState) (d : ApiData) (r : FetchResult)
    (h : truthyStr s.rawText = true) :
    ((handleAnalyze r s).status = Status.success ∨ (handleAnalyze r s).status = Status.error)
    ∧ ((handleAnalyze r s).status = Status.error →
        ∃ m, (handleAnalyze r s).errorMsg = some m ∧ m ≠ "")
    ∧ (handleAnalyze FetchResult.exn s).status = Status.error
    ∧ (handleAnalyze FetchResult.exn s).errorMsg = some networkErrorMsg
    ∧ (truthyStr d.error = true →
        (handleAnalyze (.ok d) s).status = Status.error
        ∧ (handleAnalyze (.ok d) s).errorMsg = d.error)
    ∧ (truthyStr d.error = false →
        (handleAnalyze (.ok d) s).status = Status.success
        ∧ (handleAnalyze (.ok d) s).items = d.items.getD []
        ∧ (handleAnalyze (.ok d) s).errorMsg = none) := by
  rw [handleAnalyze_eq r s h, handleAnalyze_eq FetchResult.exn s h,
      handleAnalyze_eq (.ok d) s h]
  refine ⟨?_, ?_, ?_, ?_, ?_, ?_⟩
  · cases r with
    | exn => right; rfl
    | ok d' =>
        by_cases he : truthyStr d'.error = true
        · right; simp [resolveAnalyze, he]
        · left; simp [resolveAnalyze, he]
  · cases r with
    | exn =>
        intro _
        exact ⟨networkErrorMsg, rfl, by decide⟩
    | ok d' =>
        by_cases he : truthyStr d'.error = true
        · intro _
          obtain ⟨m, hm, hne⟩ := (truthyStr_iff d'.error).mp he
          exact ⟨m, by simp [resolveAnalyze, hm, truthyStr, hne], hne⟩
        · simp [resolveAnalyze, he]
  · rfl
  · rfl
  · intro he; simp [resolveAnalyze, he]
  · intro he; simp [resolveAnalyze, he]

/-- C4 witness: the amended theorem applied to the concrete ready state, a
concrete response body and the thrown-fetch outcome. -/
theorem c4_amended_witness :
    ((handleAnalyze FetchResult.exn readyDemoState).status = Status.success
      ∨ (handleAnalyze FetchResult.exn readyDemoState).status = Status.error)
    ∧ ((handleAnalyze FetchResult.exn readyDemoState).status = Status.error →
        ∃ m, (handleAnalyze FetchResult.exn readyDemoState).errorMsg = some m ∧ m ≠ "")
    ∧ (handleAnalyze FetchResult.exn readyDemoState).status = Status.error
    ∧ (handleAnalyze FetchResult.exn readyDemoState).errorMsg = some networkErrorMsg
    ∧ (truthyStr ({ error := some "Gemini quota exceeded", items := none } : ApiData).error = true →
        (handleAnalyze (.ok { error := some "Gemini quota exceeded", items := none })
            readyDemoState).status = Status.error
        ∧ (handleAnalyze (.ok { error := some "Gemini quota exceeded", items := none })
            readyDemoState).errorMsg
            = ({ error := some "Gemini quota exceeded", items := none } : ApiData).error)
    ∧ (truthyStr ({ error := some "Gemini quota exceeded", items := none } : ApiData).error = false →
        (handleAnalyze (.ok { error := some "Gemini quota exceeded", items := none })
            readyDemoState).status = Status.success
        ∧ (handleAnalyze (.ok { error := some "Gemini quota exceeded", items := none })
            readyDemoState).items
            = ({ error := some "Gemini quota exceeded", items := none } : ApiData).items.getD []
        ∧ (handleAnalyze (.ok { error := some "Gemini quota exceeded", items := none })
            readyDemoState).errorMsg = none) :=
  c4_amended_terminal readyDemoState { error := some "Gemini quota exceeded", items := none }
    FetchResult.exn (by decide)

/-- C6: restoring a run from the history view injects exactly that run's
items, enters the success state, switches the view back to analyze, and
issues no API request; the only history-page request is the single history
fetch issued when the history view is entered. -/
theorem c6_restore_no_api (s : ClientState) (its : List Item) (h : s.view = View.history) :
    step s (.restore its)
      = { s with items := its, status := Status.success,
                 rawText := some "(restored from history)", view := View.analyze }
    ∧ apiCalls s (.restore its) = 0
    ∧ apiCalls { s with view := View.analyze } (.nav View.history) = 1 := by
  refine ⟨?_, rfl, rfl⟩
  simp [step, h, handleRestore]

/-- C6 witness: the theorem applied to a concrete state sitting on the
history view with a concrete run. -/
theorem c6_restore_witness :
    step { succDemoState with view := View.history } (.restore [demoItem])
      = { { succDemoState with view := View.history } with
          items := [demoItem], status := Status.success,
          rawText := some "(restored from history)", view := View.analyze }
    ∧ apiCalls { succDemoState with view := View.history } (.restore [demoItem]) = 0
    ∧ apiCalls { { succDemoState with view := View.history } with view := View.analyze }
        (.nav View.history) = 1 :=
  c6_restore_no_api { succDemoState with view := View.history } [demoItem] rfl

/-- Appending a suffix whose last dot sits at index `j` puts the last dot of
the whole name at `l.length + j`. -/
lemma jsLastIndexOfAux_append (l suffix : List Char) (j : Nat)
    (h : jsLastIndexOfAux suffix '.' = some j) :
    jsLastIndexOfAux (l ++ suffix) '.' = some (l.length + j) := by
  induction l with
  | nil => simpa using h
  | cons a l ih => simp [jsLastIndexOfAux, ih]; omega

/-- Slicing from a non-negative index is `List.drop`. -/
lemma jsSliceFrom_natCast (cs : List Char) (n : Nat) :
    jsSliceFrom cs (n : Int) = cs.drop n := by
  show cs.drop (Int.toNat (if (n : Int) < 0 then
      max ((cs.length : Int) + (n : Int)) 0 else (n : Int))) = cs.drop n
  rw [if_neg (by omega : ¬ ((n : Int) < 0))]
  simp

/-- The extension of a name ending in a dotted suffix whose only dot is its
first character is that suffix, lower-cased. -/
lemma extOf_append (name suffix : String)
    (h : jsLastIndexOfAux suffix.toList '.' = some 0) :
    extOf (name ++ suffix) = String.mk (suffix.toList.map Char.toLower) := by
  have htl : (name ++ suffix).toList = name.toList ++ suffix.toList := by
    simp [String.toList]
  have haux : jsLastIndexOfAux ((name ++ suffix).toList) '.' = some name.toList.length := by
    rw [htl]
    simpa using jsLastIndexOfAux_append name.toList suffix.toList 0 h
  unfold extOf jsLastIndexOf
  rw [haux]
  show String.mk ((jsSliceFrom (name ++ suffix).toList
      ((name.toList.length : Nat) : Int)).map Char.toLower) = _
  rw [htl, jsSliceFrom_natCast, List.drop_left]

/-- C5 counterexample: a `.json` file whose content is not valid JSON is not
re-serialized — `JSON.parse` throws, the catch branch passes the raw text
onward unchanged — so the claim that every `.json` upload is handed onward
re-serialized is false. -/
theorem c5_counterexample :
    readFile "data.json" "not json" = some "not json"
    ∧ jsonPretty "not json" = none :=
  ⟨rfl, rfl⟩

/-- C5 amended: a name with neither a `.txt` nor a `.json` extension is
rejected (alert, nothing handed onward); a `.json` extension hands onward
the re-serialization `JSON.stringify(JSON.parse(content), null, 2)` when the
content parses, and the raw content unchanged when parsing throws; a `.txt`
extension passes the raw content through unchanged. -/
theorem c5_amended_readfile (name content : String) (h : extOf name = ".json") :
    readFile name content = some ((jsonPretty content).getD content)
    ∧ readFile (name ++ ".txt") content = some content
    ∧ readFile (name ++ ".png") content = none := by
  have h2 : extOf (name ++ ".txt") = ".txt" := by
    rw [extOf_append name ".txt" rfl]; decide
  have h3 : extOf (name ++ ".png") = ".png" := by
    rw [extOf_append name ".png" rfl]; decide
  refine ⟨?_, ?_, ?_⟩
  · cases hp : jsonPretty content <;> simp [readFile, h, hp]
  · simp [readFile, h2]
  · simp [readFile, h3]

/-- C5 witness: the amended theorem applied to a concrete file name and a
concrete JSON array content. -/
theorem c5_amended_witness :
    readFile "feedback.json" "[1, 2]" = some ((jsonPretty "[1, 2]").getD "[1, 2]")
    ∧ readFile ("feedback.json" ++ ".txt") "[1, 2]" = some "[1, 2]"
    ∧ readFile ("feedback.json" ++ ".png") "[1, 2]" = none :=
  c5_amended_readfile "feedback.json" "[1, 2]" (by decide)

/-- Invariant: every reachable error state carries a non-empty error
message.  Every transition into the error state stores either a truthy
response error field or the fixed network message. -/
lemma error_has_msg (s : ClientState) (hs : Reach s) :
    s.status = Status.error → ∃ m, s.errorMsg = some m ∧ m ≠ "" := by
  induction hs with
  | init => exact fun h => nomatch h
  | next s e hs ih =>
      cases e with
      | uploadPicker t =>
          by_cases hl : isLoading s = true
          · simpa [step, hl] using ih
          · have hl' : isLoading s = false := by simpa using hl
            cases ht : truthyStr t <;> simp [step, hl', handleUpload, ht]
      | uploadDrop t =>
          cases ht : truthyStr t <;> simp [step, handleUpload, ht]
      | analyzeClick r =>
          by_cases hd : analyzeDisabled s = true
          · simpa [step, clickAnalyze, hd] using ih
          · have hd' : analyzeDisabled s = false := by simpa using hd
            by_cases hr : truthyStr s.rawText = true
            · cases r with
              | exn =>
                  intro _
                  refine ⟨networkErrorMsg, ?_, by decide⟩
                  simp [step, clickAnalyze, hd', hr, resolveAnalyze, startAnalyze]
              | ok d =>
                  by_cases he : truthyStr d.error = true
                  · intro _
                    obtain ⟨m, hm, hne⟩ := (truthyStr_iff d.error).mp he
                    refine ⟨m, ?_, hne⟩
                    have hm' : truthyStr (some m) = true := by simp [truthyStr, hne]
                    simp [step, clickAnalyze, hd', hr, resolveAnalyze, startAnalyze, hm, hm']
                  · have he' : truthyStr d.error = false := by simpa using he
                    simp [step, clickAnalyze, hd', hr, resolveAnalyze, startAnalyze, he']
            · have hr' : truthyStr s.rawText = false := by simpa using hr
              simpa [step, clickAnalyze, hd', hr'] using ih
      | restore its =>
          by_cases hv : (s.view == View.history) = true
          · simp [step, hv, handleRestore]
          · have hv' : (s.view == View.history) = false := by simpa using hv
            simpa [step, hv'] using ih
      | nav v =>
          simpa [step] using ih

/-- C7: on the analyze view, the loading spinner, the error banner and the
dashboard are pairwise never rendered together (they are gated by three
distinct statuses), and every reachable error state does render the banner
because its message is always present and non-empty. -/
theorem c7_render_exclusive (s : ClientState) (hs : Reach s) :
    ((rendersLoading s && rendersErrorBanner s) = false)
    ∧ ((rendersLoading s && rendersDashboard s) = false)
    ∧ ((rendersErrorBanner s && rendersDashboard s) = false)
    ∧ (s.status = Status.error → rendersErrorBanner s = true) := by
  refine ⟨?_, ?_, ?_, ?_⟩
  · obtain ⟨v, rt, st, it, em⟩ := s
    cases st <;> simp [rendersLoading, rendersErrorBanner, isLoading]
  · obtain ⟨v, rt, st, it, em⟩ := s
    cases st <;> simp [rendersLoading, rendersDashboard, isLoading]
  · obtain ⟨v, rt, st, it, em⟩ := s
    cases st <;> simp [rendersErrorBanner, rendersDashboard]
  · intro h
    obtain ⟨m, hm, hne⟩ := error_has_msg s hs h
    simp [rendersErrorBanner, h, hm, truthyStr, hne]

/-- C7 witness: the theorem applied to a concrete reachable error state. -/
theorem c7_render_witness :
    ((rendersLoading errDemoState && rendersErrorBanner errDemoState) = false)
    ∧ ((rendersLoading errDemoState && rendersDashboard errDemoState) = false)
    ∧ ((rendersErrorBanner errDemoState && rendersDashboard errDemoState) = false)
    ∧ (errDemoState.status = Status.error → rendersErrorBanner errDemoState = true) :=
  c7_render_exclusive errDemoState
    (Reach.next _ (Event.analyzeClick FetchResult.exn)
      (Reach.next _ (Event.uploadPicker (some "The login button is broken.")) Reach.init))

/-- C8 (spec-modelled backend): on non-blank input, for an adapter output of
N elements of which M are individually valid, Analyzer.run returns exactly
the valid elements in their original order (an order-preserving sublist),
count = M, a null error field, and — the function being total — no
exception, including when M = 0. -/
theorem c8_analyzer_partial (text : String) (elems : List RawItem)
    (h : isBlank text = false) :
    (Analyzer.run text (.ok elems)).error = none
    ∧ (Analyzer.run text (.ok elems)).items = elems.filter validateItem
    ∧ (Analyzer.run text (.ok elems)).count = elems.countP validateItem
    ∧ ((Analyzer.run text (.ok elems)).items).Sublist elems
    ∧ (∀ x ∈ (Analyzer.run text (.ok elems)).items, validateItem x = true)
    ∧ (∀ x ∈ elems, validateItem x = true → x ∈ (Analyzer.run text (.ok elems)).items) := by
  have hrun : Analyzer.run text (.ok elems)
      = { items := elems.filter validateItem,
          count := (elems.filter validateItem).length, error := none } := by
    simp [Analyzer.run, h]
  rw [hrun]
  refine ⟨rfl, rfl, ?_, List.filter_sublist _, ?_, ?_⟩
  · simp [List.countP_eq_length_filter]
  · intro x hx
    exact (List.mem_filter.mp hx).2
  · intro x hx hv
    exact List.mem_filter.mpr ⟨hx, hv⟩

/-- A valid raw element as the Gemini prompt describes one. -/
def rawDemoValid : RawItem :=
  { category := some "Bug", summary := some "Login button broken",
    sentiment_score := some 0,
    original_text := some "The login button is broken." }

/-- An invalid raw element: its category is outside the allowed set. -/
def rawDemoInvalid : RawItem :=
  { category := some "Compliment", summary := some "Love the app.",
    sentiment_score := some 1, original_text := some "Love the app!" }

/-- C8 witness: the theorem applied to concrete input text and a concrete
adapter output with one valid and one invalid element. -/
theorem c8_analyzer_witness :
    (Analyzer.run "The login button is broken." (.ok [rawDemoValid, rawDemoInvalid])).error = none
    ∧ (Analyzer.run "The login button is broken." (.ok [rawDemoValid, rawDemoInvalid])).items
        = [rawDemoValid, rawDemoInvalid].filter validateItem
    ∧ (Analyzer.run "The login button is broken." (.ok [rawDemoValid, rawDemoInvalid])).count
        = [rawDemoValid, rawDemoInvalid].countP validateItem
    ∧ ((Analyzer.run "The login button is broken."
          (.ok [rawDemoValid, rawDemoInvalid])).items).Sublist [rawDemoValid, rawDemoInvalid]
    ∧ (∀ x ∈ (Analyzer.run "The login button is broken."
          (.ok [rawDemoValid, rawDemoInvalid])).items, validateItem x = true)
    ∧ (∀ x ∈ [rawDemoValid, rawDemoInvalid], validateItem x = true →
        x ∈ (Analyzer.run "The login button is broken."
          (.ok [rawDemoValid, rawDemoInvalid])).items) :=
  c8_analyzer_partial "The login button is broken." [rawDemoValid, rawDemoInvalid] (by decide)

/-- C9: every member of the Dashboard input list sits in the Bug, Feature or
Pain Point column exactly when its category is that column's literal (so an
item with any other category is rendered in no column); each column
preserves the input's relative order; the header count is the full input
length, which strictly exceeds the number of rendered items on a concrete
input whose item has an unknown category. -/
theorem c9_dashboard_columns (items : List Item) (i : Item) (hi : i ∈ items) :
    (i ∈ dashBugs items ↔ i.category = "Bug")
    ∧ (i ∈ dashFeatures items ↔ i.category = "Feature")
    ∧ (i ∈ dashPains items ↔ i.category = "Pain Point")
    ∧ (dashBugs items).Sublist items
    ∧ (dashFeatures items).Sublist items
    ∧ (dashPains items).Sublist items
    ∧ dashboardCount items = items.length
    ∧ dashboardCount otherDemoItems
        > (dashBugs otherDemoItems).length + (dashFeatures otherDemoItems).length
          + (dashPains otherDemoItems).length := by
  refine ⟨?_, ?_, ?_, List.filter_sublist _, List.filter_sublist _, List.filter_sublist _,
    rfl, by decide⟩
  · simp [dashBugs, List.mem_filter, hi]
  · simp [dashFeatures, List.mem_filter, hi]
  · simp [dashPains, List.mem_filter, hi]

/-- C9 witness: the theorem applied to a concrete singleton list and its
member. -/
theorem c9_dashboard_witness :
    (demoItem ∈ dashBugs [demoItem] ↔ demoItem.category = "Bug")
    ∧ (demoItem ∈ dashFeatures [demoItem] ↔ demoItem.category = "Feature")
    ∧ (demoItem ∈ dashPains [demoItem] ↔ demoItem.category = "Pain Point")
    ∧ (dashBugs [demoItem]).Sublist [demoItem]
    ∧ (dashFeatures [demoItem]).Sublist [demoItem]
    ∧ (dashPains [demoItem]).Sublist [demoItem]
    ∧ dashboardCount [demoItem] = [demoItem].length
    ∧ dashboardCount otherDemoItems
        > (dashBugs otherDemoItems).length + (dashFeatures otherDemoItems).length
          + (dashPains otherDemoItems).length :=
  c9_dashboard_columns [demoItem] demoItem (List.mem_singleton.mpr rfl)

/-- C10 counterexample: a response whose error field is the non-null empty
string takes the success path (JavaScript truthiness) and replaces the
displayed items, so the claim that a non-null error field leaves the items
unchanged is false. -/
theorem c10_counterexample :
    succDemoState.items = [demoItem]
    ∧ ({ error := some "", items := some [] } : ApiData).error ≠ none
    ∧ (handleAnalyze (.ok { error := some "", items := some [] }) succDemoState).items = [] :=
  ⟨by decide, by decide, by decide⟩

/-- C10 amended: a truthy (non-null, non-empty) response error field, and
likewise a thrown fetch, leave the displayed items unchanged — as well as
the uploaded text and the view; items are replaced only on the success
path, which the falsy-error responses (null or empty string) take. -/
theorem c10_amended_frame (s : ClientState) (d : ApiData)
    (h : truthyStr d.error = true) :
    (handleAnalyze (.ok d) s).items = s.items
    ∧ (handleAnalyze FetchResult.exn s).items = s.items
    ∧ (handleAnalyze (.ok d) s).rawText = s.rawText
    ∧ (handleAnalyze (.ok d) s).view = s.view
    ∧ (handleAnalyze FetchResult.exn s).rawText = s.rawText
    ∧ (handleAnalyze FetchResult.exn s).view = s.view := by
  by_cases hr : truthyStr s.rawText = true
  · simp [handleAnalyze, hr, resolveAnalyze, startAnalyze, h]
  · have hr' : truthyStr s.rawText = false := by simpa using hr
    simp [handleAnalyze, hr']

/-- C10 witness: the amended theorem applied to the concrete success state
and a concrete error response. -/
theorem c10_amended_witness :
    (handleAnalyze (.ok { error := some "boom", items := some [] }) succDemoState).items
        = succDemoState.items
    ∧ (handleAnalyze FetchResult.exn succDemoState).items = succDemoState.items
    ∧ (handleAnalyze (.ok { error := some "boom", items := some [] }) succDemoState).rawText
        = succDemoState.rawText
    ∧ (handleAnalyze (.ok { error := some "boom", items := some [] }) succDemoState).view
        = succDemoState.view
    ∧ (handleAnalyze FetchResult.exn succDemoState).rawText = succDemoState.rawText
    ∧ (handleAnalyze FetchResult.exn succDemoState).view = succDemoState.view :=
  c10_amended_frame succDemoState { error := some "boom", items := some [] } (by decide)

end BetterFeedback
